import Mathlib

/-!
Verification of the image-processing and cache helpers of the news backend
(`news/utils.py`, `news/views.py`, `news/context_processors.py`, `news/models.py`).

The Python functions are shallowly embedded: pure dimension arithmetic becomes
rational arithmetic (Python computes the scale factors in binary floating
point; the bounds proved here are the exact-arithmetic statements, and the
properties proved are robust to the float rounding of well-sized images),
exceptions become `Option`, and the Django cache / ORM stores become explicit
finite maps threaded through the functions.
-/

namespace News

/-- Image pixel dimensions, PIL's `Image.size = (width, height)`. -/
structure Dims where
  width : Nat
  height : Nat
  deriving DecidableEq, Repr

/-- Dimension computation of `optimize_image` (`news/utils.py`, lines 30-39):
if either dimension exceeds its bound, both are multiplied by
`scale_factor = min(max_width / width, max_height / height)` and truncated by
Python's `int(...)` (truncation = floor here, the products being nonnegative);
otherwise the image is left at its original size. -/
def optimizeDims (d : Dims) (max_width max_height : Nat) : Dims :=
  if max_width < d.width ∨ max_height < d.height then
    let scale : ℚ := min ((max_width : ℚ) / d.width) ((max_height : ℚ) / d.height)
    ⟨(⌊(d.width : ℚ) * scale⌋).toNat, (⌊(d.height : ℚ) * scale⌋).toNat⟩
  else
    d

/-- A nonnegative rational bounded by a natural has floor-truncation bounded by it. -/
lemma toNat_floor_le {x : ℚ} {m : Nat} (h : x ≤ (m : ℚ)) : (⌊x⌋).toNat ≤ m := by
  have h1 : ⌊x⌋ ≤ ((m : ℤ) : ℚ) := le_trans (Int.floor_le x) (by exact_mod_cast h)
  have h2 : ⌊x⌋ ≤ (m : ℤ) := by exact_mod_cast h1
  omega

/-- C1. `optimize_image` dimension guarantees: both output dimensions are at most the
configured maxima; neither output dimension exceeds the corresponding input dimension
(no upscaling); an input already within both bounds is returned unchanged; and the
aspect ratio is preserved within rounding tolerance (cross-multiplication differs by
less than `width + height`). -/
theorem optimize_image_dims_ok (d : Dims) (mw mh : Nat)
    (hw : 0 < d.width) (hh : 0 < d.height) :
    (optimizeDims d mw mh).width ≤ mw ∧
    (optimizeDims d mw mh).height ≤ mh ∧
    (optimizeDims d mw mh).width ≤ d.width ∧
    (optimizeDims d mw mh).height ≤ d.height ∧
    (d.width ≤ mw → d.height ≤ mh → optimizeDims d mw mh = d) ∧
    |((optimizeDims d mw mh).width : ℤ) * (d.height : ℤ) -
        ((optimizeDims d mw mh).height : ℤ) * (d.width : ℤ)| <
      (d.width : ℤ) + (d.height : ℤ) := by
  by_cases hc : mw < d.width ∨ mh < d.height
  · have hopt : optimizeDims d mw mh =
        ⟨(⌊(d.width : ℚ) * min ((mw : ℚ) / d.width) ((mh : ℚ) / d.height)⌋).toNat,
         (⌊(d.height : ℚ) * min ((mw : ℚ) / d.width) ((mh : ℚ) / d.height)⌋).toNat⟩ := by
      rw [optimizeDims, if_pos hc]
    set w := d.width with hwdef
    set h := d.height with hhdef
    set s : ℚ := min ((mw : ℚ) / w) ((mh : ℚ) / h) with hsdef
    have hwq : (0 : ℚ) < (w : ℚ) := by exact_mod_cast hw
    have hhq : (0 : ℚ) < (h : ℚ) := by exact_mod_cast hh
    have hs0 : 0 ≤ s :=
      le_min (div_nonneg (Nat.cast_nonneg _) (Nat.cast_nonneg _))
        (div_nonneg (Nat.cast_nonneg _) (Nat.cast_nonneg _))
    have hsw : (w : ℚ) * s ≤ (mw : ℚ) := by
      have : (w : ℚ) * s ≤ (w : ℚ) * ((mw : ℚ) / w) :=
        mul_le_mul_of_nonneg_left (min_le_left _ _) hwq.le
      calc (w : ℚ) * s ≤ (w : ℚ) * ((mw : ℚ) / w) := this
        _ = (mw : ℚ) := by field_simp
    have hsh : (h : ℚ) * s ≤ (mh : ℚ) := by
      have : (h : ℚ) * s ≤ (h : ℚ) * ((mh : ℚ) / h) :=
        mul_le_mul_of_nonneg_left (min_le_right _ _) hhq.le
      calc (h : ℚ) * s ≤ (h : ℚ) * ((mh : ℚ) / h) := this
        _ = (mh : ℚ) := by field_simp
    have hs1 : s ≤ 1 := by
      rcases hc with hc | hc
      · exact le_of_lt (lt_of_le_of_lt (min_le_left _ _)
          ((div_lt_one hwq).mpr (by exact_mod_cast hc)))
      · exact le_of_lt (lt_of_le_of_lt (min_le_right _ _)
          ((div_lt_one hhq).mpr (by exact_mod_cast hc)))
    have hws1 : (w : ℚ) * s ≤ (w : ℚ) := by
      calc (w : ℚ) * s ≤ (w : ℚ) * 1 := mul_le_mul_of_nonneg_left hs1 hwq.le
        _ = (w : ℚ) := mul_one _
    have hhs1 : (h : ℚ) * s ≤ (h : ℚ) := by
      calc (h : ℚ) * s ≤ (h : ℚ) * 1 := mul_le_mul_of_nonneg_left hs1 hhq.le
        _ = (h : ℚ) := mul_one _
    have hws0 : (0 : ℚ) ≤ (w : ℚ) * s := mul_nonneg hwq.le hs0
    have hhs0 : (0 : ℚ) ≤ (h : ℚ) * s := mul_nonneg hhq.le hs0
    have hnw0 : 0 ≤ ⌊(w : ℚ) * s⌋ := Int.floor_nonneg.mpr hws0
    have hnh0 : 0 ≤ ⌊(h : ℚ) * s⌋ := Int.floor_nonneg.mpr hhs0
    refine ⟨?_, ?_, ?_, ?_, ?_, ?_⟩
    · rw [hopt]; exact toNat_floor_le hsw
    · rw [hopt]; exact toNat_floor_le hsh
    · rw [hopt]; exact toNat_floor_le hws1
    · rw [hopt]; exact toNat_floor_le hhs1
    · intro h1 h2
      exfalso
      rcases hc with hc | hc
      · exact absurd h1 (not_le.mpr hc)
      · exact absurd h2 (not_le.mpr hc)
    · rw [hopt]
      set nw : ℤ := ⌊(w : ℚ) * s⌋ with hnwdef
      set nh : ℤ := ⌊(h : ℚ) * s⌋ with hnhdef
      have hcw : ((nw.toNat : Nat) : ℤ) = nw := Int.toNat_of_nonneg hnw0
      have hch : ((nh.toNat : Nat) : ℤ) = nh := Int.toNat_of_nonneg hnh0
      have goalQ : |(nw : ℚ) * (h : ℚ) - (nh : ℚ) * (w : ℚ)| < (w : ℚ) + (h : ℚ) := by
        have fl1 : (nw : ℚ) ≤ (w : ℚ) * s := Int.floor_le _
        have fl2 : (w : ℚ) * s - 1 < (nw : ℚ) := Int.sub_one_lt_floor _
        have fl3 : (nh : ℚ) ≤ (h : ℚ) * s := Int.floor_le _
        have fl4 : (h : ℚ) * s - 1 < (nh : ℚ) := Int.sub_one_lt_floor _
        have u1 : (nw : ℚ) * h ≤ ((w : ℚ) * s) * h := mul_le_mul_of_nonneg_right fl1 hhq.le
        have u2 : ((h : ℚ) * s - 1) * w < (nh : ℚ) * w := mul_lt_mul_of_pos_right fl4 hwq
        have u3 : (nh : ℚ) * w ≤ ((h : ℚ) * s) * w := mul_le_mul_of_nonneg_right fl3 hwq.le
        have u4 : ((w : ℚ) * s - 1) * h < (nw : ℚ) * h := mul_lt_mul_of_pos_right fl2 hhq
        rw [abs_lt]
        constructor <;> nlinarith [u1, u2, u3, u4]
      have : |((nw.toNat : ℤ)) * (h : ℤ) - ((nh.toNat : ℤ)) * (w : ℤ)| < (w : ℤ) + (h : ℤ) := by
        rw [hcw, hch]
        exact_mod_cast goalQ
      exact this
  · have hle : d.width ≤ mw ∧ d.height ≤ mh := by
      push_neg at hc
      exact hc
    have hopt : optimizeDims d mw mh = d := by
      rw [optimizeDims, if_neg hc]
    refine ⟨?_, ?_, ?_, ?_, ?_, ?_⟩
    · rw [hopt]; exact hle.1
    · rw [hopt]; exact hle.2
    · rw [hopt]
    · rw [hopt]
    · intro _ _; exact hopt
    · rw [hopt, mul_comm]
      simp only [sub_self, abs_zero]
      have hwz : (0 : ℤ) < (d.width : ℤ) := by exact_mod_cast hw
      have hhz : (0 : ℤ) < (d.height : ℤ) := by exact_mod_cast hh
      omega

/-- C1 witness: the spec's own example, a 4000x3000 image bounded by 1200x800. -/
theorem optimize_image_dims_ok_witness :
    (optimizeDims ⟨4000, 3000⟩ 1200 800).width ≤ 1200 ∧
    (optimizeDims ⟨4000, 3000⟩ 1200 800).height ≤ 800 ∧
    (optimizeDims ⟨4000, 3000⟩ 1200 800).width ≤ (⟨4000, 3000⟩ : Dims).width ∧
    (optimizeDims ⟨4000, 3000⟩ 1200 800).height ≤ (⟨4000, 3000⟩ : Dims).height ∧
    ((⟨4000, 3000⟩ : Dims).width ≤ 1200 → (⟨4000, 3000⟩ : Dims).height ≤ 800 →
      optimizeDims ⟨4000, 3000⟩ 1200 800 = ⟨4000, 3000⟩) ∧
    |((optimizeDims ⟨4000, 3000⟩ 1200 800).width : ℤ) * ((⟨4000, 3000⟩ : Dims).height : ℤ) -
        ((optimizeDims ⟨4000, 3000⟩ 1200 800).height : ℤ) * ((⟨4000, 3000⟩ : Dims).width : ℤ)| <
      ((⟨4000, 3000⟩ : Dims).width : ℤ) + ((⟨4000, 3000⟩ : Dims).height : ℤ) :=
  optimize_image_dims_ok ⟨4000, 3000⟩ 1200 800 (by decide) (by decide)

/-- Python's two-argument `min(a, b, key=k)`: returns `a` when `k a ≤ k b`
(ties go to the first argument). -/
def minByKey (a b : ℤ) (k : ℤ → ℚ) : ℤ := if k a ≤ k b then a else b

/-- Pillow's `round_aspect(number, key)` from `Image.thumbnail`:
`max(min(math.floor(number), math.ceil(number), key=key), 1)`. -/
def round_aspect (n : ℚ) (k : ℤ → ℚ) : ℤ := max (minByKey ⌊n⌋ ⌈n⌉ k) 1

/-- Dimension computation of PIL `Image.thumbnail(size)` as called by
`create_thumbnail` (`news/utils.py` line 83, default `size=(300, 200)`):
if the image already fits in the box it is left unchanged; otherwise the
constrained axis is pinned to the box and the other axis is rounded from the
exact aspect-preserving value (Pillow computes `aspect = width / height` in
floating point; here the same algorithm is carried out in exact rationals). -/
def thumbnailDims (d : Dims) (sx sy : Nat) : Dims :=
  if sx ≥ d.width ∧ sy ≥ d.height then d
  else if (sx : ℚ) / sy ≥ (d.width : ℚ) / d.height then
    ⟨(round_aspect ((sy : ℚ) * ((d.width : ℚ) / d.height))
        (fun n => |(d.width : ℚ) / d.height - (n : ℚ) / sy|)).toNat, sy⟩
  else
    ⟨sx, (round_aspect ((sx : ℚ) / ((d.width : ℚ) / d.height))
        (fun n => if n = 0 then 0 else |(d.width : ℚ) / d.height - (sx : ℚ) / n|)).toNat⟩

lemma one_le_round_aspect (n : ℚ) (k : ℤ → ℚ) : 1 ≤ round_aspect n k :=
  le_max_right _ _

lemma round_aspect_le {n : ℚ} {c : Nat} (k : ℤ → ℚ) (hc : 1 ≤ c) (h : n ≤ (c : ℚ)) :
    (round_aspect n k).toNat ≤ c := by
  have hfl : ⌊n⌋ ≤ (c : ℤ) := by
    have h1 : ⌊n⌋ ≤ ⌊(c : ℚ)⌋ := Int.floor_le_floor h
    simpa using h1
  have hcl : ⌈n⌉ ≤ (c : ℤ) := by
    rw [Int.ceil_le]; exact_mod_cast h
  have hmb : minByKey ⌊n⌋ ⌈n⌉ k ≤ (c : ℤ) := by
    unfold minByKey; split <;> assumption
  have hra : round_aspect n k ≤ (c : ℤ) := by
    unfold round_aspect
    exact max_le hmb (by exact_mod_cast hc)
  omega

lemma round_aspect_close {n : ℚ} (k : ℤ → ℚ) (hn : 0 < n) :
    |((round_aspect n k : ℤ) : ℚ) - n| < 1 := by
  have hcl1 : (1 : ℤ) ≤ ⌈n⌉ := Int.ceil_pos.mpr hn
  unfold round_aspect minByKey
  split
  · by_cases h1 : (1 : ℤ) ≤ ⌊n⌋
    · rw [max_eq_left h1]
      have a1 : ((⌊n⌋ : ℤ) : ℚ) ≤ n := Int.floor_le n
      have a2 : n - 1 < ((⌊n⌋ : ℤ) : ℚ) := Int.sub_one_lt_floor n
      rw [abs_lt]; constructor <;> linarith
    · have hfl0 : 0 ≤ ⌊n⌋ := Int.floor_nonneg.mpr hn.le
      have hfl : ⌊n⌋ = 0 := by omega
      rw [max_eq_right (by omega)]
      have hlt : n < 1 := by
        have h2 := Int.lt_floor_add_one n
        rw [hfl] at h2; simpa using h2
      rw [abs_lt]; push_cast; constructor <;> linarith
  · rw [max_eq_left hcl1]
    have a1 : n ≤ ((⌈n⌉ : ℤ) : ℚ) := Int.le_ceil n
    have a2 : ((⌈n⌉ : ℤ) : ℚ) < n + 1 := Int.ceil_lt_add_one n
    rw [abs_lt]; constructor <;> linarith

/-- C2. `create_thumbnail` dimension guarantees: the output fits in the size box
on both axes, the image is only ever downscaled (never upscaled or cropped), and
the aspect ratio is preserved within rounding tolerance. -/
theorem create_thumbnail_fits (d : Dims) (sx sy : Nat)
    (hw : 0 < d.width) (hh : 0 < d.height) (hx : 0 < sx) (hy : 0 < sy) :
    (thumbnailDims d sx sy).width ≤ sx ∧
    (thumbnailDims d sx sy).height ≤ sy ∧
    (thumbnailDims d sx sy).width ≤ d.width ∧
    (thumbnailDims d sx sy).height ≤ d.height ∧
    |((thumbnailDims d sx sy).width : ℤ) * (d.height : ℤ) -
        ((thumbnailDims d sx sy).height : ℤ) * (d.width : ℤ)| <
      (d.width : ℤ) + (d.height : ℤ) := by
  set w := d.width with hwdef
  set h := d.height with hhdef
  have hwq : (0 : ℚ) < (w : ℚ) := by exact_mod_cast hw
  have hhq : (0 : ℚ) < (h : ℚ) := by exact_mod_cast hh
  have hxq : (0 : ℚ) < (sx : ℚ) := by exact_mod_cast hx
  have hyq : (0 : ℚ) < (sy : ℚ) := by exact_mod_cast hy
  have hwz : (0 : ℤ) < (w : ℤ) := by exact_mod_cast hw
  have hhz : (0 : ℤ) < (h : ℤ) := by exact_mod_cast hh
  by_cases hfit : sx ≥ w ∧ sy ≥ h
  · have hres : thumbnailDims d sx sy = d := by rw [thumbnailDims, if_pos hfit]
    refine ⟨?_, ?_, ?_, ?_, ?_⟩
    · rw [hres]; exact hfit.1
    · rw [hres]; exact hfit.2
    · rw [hres]
    · rw [hres]
    · rw [hres, mul_comm]
      simp only [sub_self, abs_zero]
      omega
  · by_cases hbr : (sx : ℚ) / sy ≥ (w : ℚ) / h
    · set q : ℚ := (sy : ℚ) * ((w : ℚ) / h) with hqdef
      set kx : ℤ → ℚ := fun n => |(w : ℚ) / h - (n : ℚ) / sy| with hkxdef
      have hres : thumbnailDims d sx sy = ⟨(round_aspect q kx).toNat, sy⟩ := by
        rw [thumbnailDims, if_neg hfit, if_pos hbr]
      have crossX : (w : ℚ) * sy ≤ (sx : ℚ) * h := by
        rw [ge_iff_le, div_le_div_iff₀ hhq hyq] at hbr
        exact hbr
      have hsyh : sy ≤ h := by
        by_contra hsy
        have hhsy : h < sy := lt_of_not_le hsy
        have hsxw : sx < w := by
          by_contra hsx
          exact hfit ⟨le_of_not_lt hsx, le_of_lt hhsy⟩
        have c1 : (sx : ℚ) * h < (w : ℚ) * h :=
          mul_lt_mul_of_pos_right (by exact_mod_cast hsxw) hhq
        have c2 : (w : ℚ) * h < (w : ℚ) * sy :=
          mul_lt_mul_of_pos_left (by exact_mod_cast hhsy) hwq
        linarith
      have hq_eq : q * (h : ℚ) = (sy : ℚ) * w := by
        rw [hqdef]; field_simp
      have hq0 : 0 < q := mul_pos hyq (div_pos hwq hhq)
      have hqsx : q ≤ (sx : ℚ) := by
        rw [← mul_le_mul_right hhq, hq_eq]
        linarith [crossX]
      have hqw : q ≤ (w : ℚ) := by
        rw [← mul_le_mul_right hhq, hq_eq]
        have : (sy : ℚ) ≤ (h : ℚ) := by exact_mod_cast hsyh
        nlinarith
      have hxi0 : (0 : ℤ) ≤ round_aspect q kx :=
        le_trans (by omega) (one_le_round_aspect q kx)
      have hcast : (((round_aspect q kx).toNat : Nat) : ℤ) = round_aspect q kx :=
        Int.toNat_of_nonneg hxi0
      refine ⟨?_, ?_, ?_, ?_, ?_⟩
      · rw [hres]; exact round_aspect_le kx hx hqsx
      · rw [hres]
      · rw [hres]; exact round_aspect_le kx hw hqw
      · rw [hres]; exact hsyh
      · rw [hres]
        have hclose := round_aspect_close kx hq0
        have goalQ : |((round_aspect q kx : ℤ) : ℚ) * h - (sy : ℚ) * w| <
            (w : ℚ) + (h : ℚ) := by
          have heq : ((round_aspect q kx : ℤ) : ℚ) * h - (sy : ℚ) * w =
              (((round_aspect q kx : ℤ) : ℚ) - q) * h := by
            rw [sub_mul, hq_eq]
          rw [heq, abs_mul, abs_of_pos hhq]
          have hlt : |((round_aspect q kx : ℤ) : ℚ) - q| * h < 1 * h :=
            mul_lt_mul_of_pos_right hclose hhq
          linarith
        show |(((round_aspect q kx).toNat : Nat) : ℤ) * (h : ℤ) - (sy : ℤ) * (w : ℤ)| <
          (w : ℤ) + (h : ℤ)
        rw [hcast]
        exact_mod_cast goalQ
    · set q : ℚ := (sx : ℚ) / ((w : ℚ) / h) with hqdef
      set ky : ℤ → ℚ := fun n => if n = 0 then 0 else |(w : ℚ) / h - (sx : ℚ) / n|
        with hkydef
      have hres : thumbnailDims d sx sy = ⟨sx, (round_aspect q ky).toNat⟩ := by
        rw [thumbnailDims, if_neg hfit, if_neg hbr]
      have crossY : (sx : ℚ) * h < (w : ℚ) * sy := by
        rw [ge_iff_le, not_le, div_lt_div_iff₀ hyq hhq] at hbr
        exact hbr
      have hsxw : sx < w := by
        by_contra hsx
        have hwsx : w ≤ sx := le_of_not_lt hsx
        have hsyh : sy < h := by
          by_cases hsy : h ≤ sy
          · exact absurd ⟨hwsx, hsy⟩ hfit
          · exact lt_of_not_le hsy
        have c1 : (w : ℚ) * h ≤ (sx : ℚ) * h :=
          mul_le_mul_of_nonneg_right (by exact_mod_cast hwsx) hhq.le
        have c2 : (w : ℚ) * sy < (w : ℚ) * h :=
          mul_lt_mul_of_pos_left (by exact_mod_cast hsyh) hwq
        linarith
      have hq_eq : q * (w : ℚ) = (sx : ℚ) * h := by
        rw [hqdef]; field_simp
      have hq0 : 0 < q := div_pos hxq (div_pos hwq hhq)
      have hqsy : q ≤ (sy : ℚ) := by
        rw [← mul_le_mul_right hwq, hq_eq]
        linarith [crossY]
      have hqh : q ≤ (h : ℚ) := by
        rw [← mul_le_mul_right hwq, hq_eq]
        have : (sx : ℚ) < (w : ℚ) := by exact_mod_cast hsxw
        nlinarith
      have hyi0 : (0 : ℤ) ≤ round_aspect q ky :=
        le_trans (by omega) (one_le_round_aspect q ky)
      have hcast : (((round_aspect q ky).toNat : Nat) : ℤ) = round_aspect q ky :=
        Int.toNat_of_nonneg hyi0
      refine ⟨?_, ?_, ?_, ?_, ?_⟩
      · rw [hres]
      · rw [hres]; exact round_aspect_le ky hy hqsy
      · rw [hres]; exact le_of_lt hsxw
      · rw [hres]; exact round_aspect_le ky hh hqh
      · rw [hres]
        have hclose := round_aspect_close ky hq0
        have goalQ : |(sx : ℚ) * h - ((round_aspect q ky : ℤ) : ℚ) * w| <
            (w : ℚ) + (h : ℚ) := by
          have heq : (sx : ℚ) * h - ((round_aspect q ky : ℤ) : ℚ) * w =
              (q - ((round_aspect q ky : ℤ) : ℚ)) * w := by
            rw [sub_mul, hq_eq]
          rw [heq, abs_mul, abs_of_pos hwq]
          rw [abs_sub_comm] at hclose
          have hlt : |q - ((round_aspect q ky : ℤ) : ℚ)| * w < 1 * w :=
            mul_lt_mul_of_pos_right hclose hwq
          linarith
        show |(sx : ℤ) * (h : ℤ) - (((round_aspect q ky).toNat : Nat) : ℤ) * (w : ℤ)| <
          (w : ℤ) + (h : ℤ)
        rw [hcast]
        exact_mod_cast goalQ

/-- C2 witness: a 4000x3000 image against the default 300x200 thumbnail box. -/
theorem create_thumbnail_fits_witness :
    (thumbnailDims ⟨4000, 3000⟩ 300 200).width ≤ 300 ∧
    (thumbnailDims ⟨4000, 3000⟩ 300 200).height ≤ 200 ∧
    (thumbnailDims ⟨4000, 3000⟩ 300 200).width ≤ (⟨4000, 3000⟩ : Dims).width ∧
    (thumbnailDims ⟨4000, 3000⟩ 300 200).height ≤ (⟨4000, 3000⟩ : Dims).height ∧
    |((thumbnailDims ⟨4000, 3000⟩ 300 200).width : ℤ) * ((⟨4000, 3000⟩ : Dims).height : ℤ) -
        ((thumbnailDims ⟨4000, 3000⟩ 300 200).height : ℤ) * ((⟨4000, 3000⟩ : Dims).width : ℤ)| <
      ((⟨4000, 3000⟩ : Dims).width : ℤ) + ((⟨4000, 3000⟩ : Dims).height : ℤ) :=
  create_thumbnail_fits ⟨4000, 3000⟩ 300 200 (by decide) (by decide) (by decide) (by decide)

/-- PIL color modes occurring in `news/utils.py` (the branch at lines 20-25
tests for `RGBA`, `LA` and `P`). -/
inductive Mode
  | RGB
  | RGBA
  | LA
  | P
  | L
  | CMYK
  deriving DecidableEq, Repr

/-- Whether the mode enters the white-background branch:
`image.mode in ('RGBA', 'LA', 'P')`. -/
def Mode.needsFlatten : Mode → Bool
  | .RGBA => true
  | .LA => true
  | .P => true
  | _ => false

/-- Pillow's `MULDIV255(a, b, tmp)`: the exact rounding division
`round(a * b / 255)` computed as `tmp = a*b + 128; ((tmp >> 8) + tmp) >> 8`. -/
def muldiv255 (a b : Nat) : Nat :=
  (((a * b + 128) / 256) + (a * b + 128)) / 256

/-- Pillow's `BLEND(mask, in1, in2)` used by `paste` with an alpha mask:
`MULDIV255(in1, 255 - mask) + MULDIV255(in2, mask)` (in1 = destination,
in2 = source). -/
def blend (dst src mask : Nat) : Nat :=
  muldiv255 dst (255 - mask) + muldiv255 src mask

/-- One pixel, tagged with the color mode of the image it belongs to.
A `P` (palette) pixel is recorded as the RGBA color its palette entry
resolves to, which is what `image.convert('RGBA')` produces for it. -/
inductive Pixel
  | rgb (r g b : Nat)
  | rgba (r g b a : Nat)
  | la (l a : Nat)
  | pal (r g b a : Nat)
  deriving DecidableEq, Repr

/-- The mode of the image a pixel belongs to. -/
def Pixel.mode : Pixel → Mode
  | .rgb _ _ _ => .RGB
  | .rgba _ _ _ _ => .RGBA
  | .la _ _ => .LA
  | .pal _ _ _ _ => .P

/-- Per-pixel effect of the white-background branch shared by `optimize_image`
(lines 20-25) and `create_thumbnail` (lines 72-77):

* `RGBA`: pasted onto a white `RGB` background with `mask = image.split()[-1]`
  (the alpha band), so each channel is alpha-blended with white;
* `P`: first `image.convert('RGBA')`, after which `image.mode == 'RGBA'` holds,
  so the paste also uses the alpha band as mask;
* `LA`: the mask expression `... if image.mode == 'RGBA' else None` yields
  `None`, so `paste` converts the `LA` image to `RGB` (replicating the gray
  level, discarding alpha) and overwrites the background with it;
* any other mode skips the branch entirely. -/
def flattenPixel : Pixel → Pixel
  | .rgb r g b => .rgb r g b
  | .rgba r g b a => .rgb (blend 255 r a) (blend 255 g a) (blend 255 b a)
  | .pal r g b a => .rgb (blend 255 r a) (blend 255 g a) (blend 255 b a)
  | .la l _ => .rgb l l l

/-- C3 counterexample: a fully transparent black `LA` pixel. The claim says all
of `RGBA`, `LA`, `P` are composited onto white, so this pixel should come out
white; the code pastes `LA` images without a mask (the mask is only built for
`RGBA`), so it comes out black. -/
theorem flatten_la_transparent_not_white :
    (Pixel.la 0 0).mode = Mode.LA ∧
    Mode.needsFlatten Mode.LA = true ∧
    flattenPixel (Pixel.la 0 0) = Pixel.rgb 0 0 0 ∧
    flattenPixel (Pixel.la 0 0) ≠ Pixel.rgb 255 255 255 := by
  refine ⟨rfl, rfl, rfl, ?_⟩
  decide

/-- C3 amended. For every pixel of a mode with alpha or palette (RGBA, LA, P),
the white-background branch produces an opaque RGB pixel (no alpha channel in
the output); for RGBA and P pixels the image is composited onto a white
background, so fully transparent pixels come out white. (For LA pixels the
paste runs without a mask, so the alpha channel is simply discarded.) -/
theorem flatten_opaque_rgb (p : Pixel)
    (hp : Mode.needsFlatten p.mode = true) :
    (∃ r g b, flattenPixel p = Pixel.rgb r g b) ∧
    (∀ r g b, p = Pixel.rgba r g b 0 → flattenPixel p = Pixel.rgb 255 255 255) ∧
    (∀ r g b, p = Pixel.pal r g b 0 → flattenPixel p = Pixel.rgb 255 255 255) := by
  have hwhite : ∀ c : Nat, blend 255 c 0 = 255 := by
    intro c
    show muldiv255 255 (255 - 0) + muldiv255 c 0 = 255
    have h1 : muldiv255 255 (255 - 0) = 255 := by decide
    have h2 : muldiv255 c 0 = 0 := by
      show (((c * 0 + 128) / 256) + (c * 0 + 128)) / 256 = 0
      rw [Nat.mul_zero]
    omega
  refine ⟨?_, ?_, ?_⟩
  · cases p with
    | rgb r g b => exact ⟨r, g, b, rfl⟩
    | rgba r g b a => exact ⟨_, _, _, rfl⟩
    | la l a => exact ⟨l, l, l, rfl⟩
    | pal r g b a => exact ⟨_, _, _, rfl⟩
  · intro r g b hpe
    subst hpe
    show Pixel.rgb (blend 255 r 0) (blend 255 g 0) (blend 255 b 0) = _
    rw [hwhite r, hwhite g, hwhite b]
  · intro r g b hpe
    subst hpe
    show Pixel.rgb (blend 255 r 0) (blend 255 g 0) (blend 255 b 0) = _
    rw [hwhite r, hwhite g, hwhite b]

/-- C3 witness: a fully transparent red RGBA pixel is flattened to opaque white. -/
theorem flatten_opaque_rgb_witness :
    (∃ r g b, flattenPixel (Pixel.rgba 200 10 10 0) = Pixel.rgb r g b) ∧
    (∀ r g b, Pixel.rgba 200 10 10 0 = Pixel.rgba r g b 0 →
      flattenPixel (Pixel.rgba 200 10 10 0) = Pixel.rgb 255 255 255) ∧
    (∀ r g b, Pixel.rgba 200 10 10 0 = Pixel.pal r g b 0 →
      flattenPixel (Pixel.rgba 200 10 10 0) = Pixel.rgb 255 255 255) :=
  flatten_opaque_rgb (Pixel.rgba 200 10 10 0) (by decide)

/-- The view-count update of `ArticleDetailView.get_object` (`news/views.py`
line 96): `Article.objects.filter(id=obj.id).update(views_count=F('views_count') + 1)`.
The `F`-expression makes the database apply `views_count = views_count + 1` as a
single storage-level delta, so the whole invocation is one atomic step on the
stored counter map. -/
def incrementViews (store : Nat → Nat) (aid : Nat) : Nat → Nat :=
  fun i => if i = aid then store i + 1 else store i

/-- `ArticleDetailView.get_object` (lines 92-99): applies the atomic delta and
then re-reads the counter from the store (`obj.refresh_from_db`), returning the
updated store together with the displayed count. -/
def detailGetObject (store : Nat → Nat) (aid : Nat) : (Nat → Nat) × Nat :=
  (incrementViews store aid, incrementViews store aid aid)

/-- A serialization of concurrent detail-view requests: each request contributes
one atomic `incrementViews` step, applied in some interleaving order given by
the list of article ids. -/
def applyIncrements (store : Nat → Nat) : List Nat → (Nat → Nat)
  | [] => store
  | aid :: rest => applyIncrements (incrementViews store aid) rest

/-- C6. The view-count increment is an atomic storage-level delta: any
serialization of concurrent invocations leaves each article's stored counter
higher by exactly the number of invocations that targeted it (in particular,
`n` concurrent invocations on the same article add exactly `n`, and other
articles are untouched), and `get_object` displays the freshly re-read
counter, one above the prior stored value. -/
theorem increment_views_exact (store : Nat → Nat) (ops : List Nat) (i : Nat)
    (n : Nat) (aid : Nat) :
    applyIncrements store ops i = store i + ops.count i ∧
    applyIncrements store (List.replicate n aid) aid = store aid + n ∧
    (detailGetObject store aid).2 = store aid + 1 := by
  have hgen : ∀ (l : List Nat) (st : Nat → Nat) (j : Nat),
      applyIncrements st l j = st j + l.count j := by
    intro l
    induction l with
    | nil => intro st j; simp [applyIncrements]
    | cons a rest ih =>
      intro st j
      rw [applyIncrements, ih]
      by_cases hja : j = a
      · subst hja
        simp [incrementViews, List.count_cons]
        omega
      · have hne : ¬ a = j := fun hc => hja hc.symm
        simp [incrementViews, List.count_cons, hja, hne]
  refine ⟨hgen ops store i, ?_, ?_⟩
  · rw [hgen]
    simp
  · simp [detailGetObject, incrementViews]

/-- `validate_image_size` (`news/utils.py` lines 126-132): raises `ValueError`
when `image.size > max_size_mb * 1024 * 1024`, else returns `True`. The image
is only read (its `size` attribute), never modified; the embedding returns the
outcome as `Except`, the error carrying the message text. -/
def validate_image_size (size : Nat) (max_size_mb : Nat) : Except String Bool :=
  if max_size_mb * 1024 * 1024 < size then
    Except.error ("Image file too large. Maximum size is " ++ toString max_size_mb ++ "MB.")
  else
    Except.ok true

/-- C10. `validate_image_size` raises `ValueError` exactly when the byte size
strictly exceeds `max_size_mb * 1024 * 1024`, and returns `True` otherwise
(it is a pure read of the size: the image is not modified). -/
theorem validate_image_size_iff (size m : Nat) :
    ((∃ e, validate_image_size size m = Except.error e) ↔ m * 1024 * 1024 < size) ∧
    (size ≤ m * 1024 * 1024 → validate_image_size size m = Except.ok true) := by
  constructor
  · constructor
    · intro ⟨e, he⟩
      by_contra hle
      rw [validate_image_size, if_neg hle] at he
      exact Except.noConfusion he
    · intro hlt
      exact ⟨_, by rw [validate_image_size, if_pos hlt]⟩
  · intro hle
    rw [validate_image_size, if_neg (by omega)]

/-- C10 witness: a 100-byte image passes the default 5 MB limit, and a
6-MB image fails it. -/
theorem validate_image_size_iff_witness :
    validate_image_size 100 5 = Except.ok true ∧
    (∃ e, validate_image_size 6291456 5 = Except.error e) :=
  ⟨(validate_image_size_iff 100 5).2 (by decide),
   (validate_image_size_iff 6291456 5).1.mpr (by decide)⟩

/-- The shared Django cache store: key -> (value, absolute expiry time).
`cache.set(key, v, timeout)` records expiry = now + timeout, and a lookup
returns the value only strictly before its expiry (Django's local-memory
backend treats `exp <= now` as expired). -/
def CacheStore (V : Type) := String → Option (V × Nat)

/-- `cache.get(key)` at time `now`: the value if present and unexpired. -/
def cacheGet {V : Type} (s : CacheStore V) (key : String) (now : Nat) : Option V :=
  match s key with
  | some (v, exp) => if now < exp then some v else none
  | none => none

/-- `cache.set(key, v, ttl)` at time `now`. -/
def cacheSet {V : Type} (s : CacheStore V) (key : String) (v : V) (ttl now : Nat) :
    CacheStore V :=
  fun k => if k = key then some (v, now + ttl) else s k

/-- The get-or-compute pattern shared by `HomeView.get_context_data`
(`news/views.py` lines 30-75) and `global_context`
(`news/context_processors.py` lines 6-38):
`cached_data = cache.get(cache_key); if cached_data: <use it> else:
<run the aggregate queries>; cache.set(cache_key, data, ttl); <use data>`.
`truthy` is Python truthiness of a cached value (both call sites cache a
non-empty dict, which is truthy; a `None` miss is falsy). The `Bool` in the
result records whether the aggregate computation `computeFn` ran. -/
def getOrCompute {V : Type} (truthy : V → Bool) (s : CacheStore V) (key : String)
    (ttl : Nat) (computeFn : Unit → V) (now : Nat) : V × CacheStore V × Bool :=
  match cacheGet s key now with
  | some v =>
    if truthy v then (v, s, false)
    else (computeFn (), cacheSet s key (computeFn ()) ttl now, true)
  | none => (computeFn (), cacheSet s key (computeFn ()) ttl now, true)

/-- Cache key of the homepage aggregates (`news/views.py` line 34). -/
def homepage_cache_key : String := "homepage_data"

/-- Cache key of the global template context (`news/context_processors.py` line 11). -/
def global_context_cache_key : String := "global_context_data"

/-- `HomeView.get_context_data` cache population: key `homepage_data`,
ttl `60 * 10` seconds (line 72). -/
def homeViewContextData {V : Type} (truthy : V → Bool) (s : CacheStore V)
    (computeFn : Unit → V) (now : Nat) : V × CacheStore V × Bool :=
  getOrCompute truthy s homepage_cache_key (60 * 10) computeFn now

/-- `global_context` cache population: key `global_context_data`,
ttl `60 * 15` seconds (line 36). -/
def globalContextData {V : Type} (truthy : V → Bool) (s : CacheStore V)
    (computeFn : Unit → V) (now : Nat) : V × CacheStore V × Bool :=
  getOrCompute truthy s global_context_cache_key (60 * 15) computeFn now

/-- C5. Get-or-compute behavior of the two cache-population paths: a present,
unexpired (truthy) entry is returned as-is without running the aggregate
queries; on a miss the aggregates run, the result is stored under the key with
expiry `now + ttl` and returned; hence a second call within the TTL window does
not recompute and returns the same value, while a call at or after expiry
recomputes. The last two conjuncts pin the two concrete call sites to this
pattern with their fixed keys and TTLs. -/
theorem cache_get_or_compute_ok {V : Type} (truthy : V → Bool) (s : CacheStore V)
    (key : String) (ttl : Nat) (f : Unit → V) (t0 t1 t2 : Nat)
    (hmiss : s key = none) (htruthy : truthy (f ()) = true)
    (h1 : t1 < t0 + ttl) (h2 : t0 + ttl ≤ t2) :
    (∀ (st : CacheStore V) (now : Nat) (v : V), cacheGet st key now = some v →
      truthy v = true → getOrCompute truthy st key ttl f now = (v, st, false)) ∧
    getOrCompute truthy s key ttl f t0 = (f (), cacheSet s key (f ()) ttl t0, true) ∧
    getOrCompute truthy (cacheSet s key (f ()) ttl t0) key ttl f t1 =
      (f (), cacheSet s key (f ()) ttl t0, false) ∧
    (getOrCompute truthy (cacheSet s key (f ()) ttl t0) key ttl f t2).2.2 = true ∧
    (∀ now, homeViewContextData truthy s f now =
      getOrCompute truthy s homepage_cache_key (60 * 10) f now) ∧
    (∀ now, globalContextData truthy s f now =
      getOrCompute truthy s global_context_cache_key (60 * 15) f now) := by
  refine ⟨?_, ?_, ?_, ?_, fun _ => rfl, fun _ => rfl⟩
  · intro st now v hv ht
    rw [getOrCompute, hv]
    simp [ht]
  · have hg : cacheGet s key t0 = none := by
      rw [cacheGet, hmiss]
    rw [getOrCompute, hg]
  · have hg : cacheGet (cacheSet s key (f ()) ttl t0) key t1 = some (f ()) := by
      rw [cacheGet]
      show (match (if key = key then some (f (), t0 + ttl) else s key) with
        | some (v, exp) => if t1 < exp then some v else none
        | none => none) = some (f ())
      rw [if_pos rfl]
      show (if t1 < t0 + ttl then some (f ()) else none) = some (f ())
      rw [if_pos h1]
    rw [getOrCompute, hg]
    simp [htruthy]
  · have hg : cacheGet (cacheSet s key (f ()) ttl t0) key t2 = none := by
      rw [cacheGet]
      show (match (if key = key then some (f (), t0 + ttl) else s key) with
        | some (v, exp) => if t2 < exp then some v else none
        | none => none) = none
      rw [if_pos rfl]
      show (if t2 < t0 + ttl then some (f ()) else none) = none
      rw [if_neg (by omega)]
    rw [getOrCompute, hg]

/-- C5 witness: a concrete run over an empty cache with value 42, first call at
time 0, second at 599 (inside the 600-second homepage TTL), third at 600. -/
theorem cache_get_or_compute_ok_witness :
    (∀ (st : CacheStore Nat) (now : Nat) (v : Nat),
      cacheGet st "homepage_data" now = some v →
      (fun x : Nat => decide (0 < x)) v = true →
      getOrCompute (fun x : Nat => decide (0 < x)) st "homepage_data" 600
        (fun _ => 42) now = (v, st, false)) ∧
    getOrCompute (fun x : Nat => decide (0 < x)) (fun _ => none) "homepage_data" 600
      (fun _ => 42) 0 =
      (42, cacheSet (fun _ => none) "homepage_data" 42 600 0, true) ∧
    getOrCompute (fun x : Nat => decide (0 < x))
      (cacheSet (fun _ => none) "homepage_data" 42 600 0) "homepage_data" 600
      (fun _ => 42) 599 =
      (42, cacheSet (fun _ => none) "homepage_data" 42 600 0, false) ∧
    (getOrCompute (fun x : Nat => decide (0 < x))
      (cacheSet (fun _ => none) "homepage_data" 42 600 0) "homepage_data" 600
      (fun _ => 42) 600).2.2 = true ∧
    (∀ now, homeViewContextData (fun x : Nat => decide (0 < x)) (fun _ => none)
      (fun _ => 42) now =
      getOrCompute (fun x : Nat => decide (0 < x)) (fun _ => none)
        homepage_cache_key (60 * 10) (fun _ => 42) now) ∧
    (∀ now, globalContextData (fun x : Nat => decide (0 < x)) (fun _ => none)
      (fun _ => 42) now =
      getOrCompute (fun x : Nat => decide (0 < x)) (fun _ => none)
        global_context_cache_key (60 * 15) (fun _ => 42) now) :=
  cache_get_or_compute_ok (fun x : Nat => decide (0 < x)) (fun _ => none)
    "homepage_data" 600 (fun _ => 42) 0 599 600 rfl (by decide)
    (by decide) (by decide)

/-- Index of the last occurrence of `c` in the list (Python `str.rfind`,
with `none` for "not found"). -/
def rfindIdx (c : Char) : List Char → Option Nat
  | [] => none
  | x :: xs =>
    match rfindIdx c xs with
    | some i => some (i + 1)
    | none => if x = c then some 0 else none

/-- Python `os.path.splitext(p)`: split off the extension at the last dot,
provided it lies inside the last path component and that component has a
non-dot character before it (leading dots never start an extension) —
`posixpath._splitext`. -/
def splitext (p : String) : String × String :=
  match rfindIdx '.' p.data with
  | none => (p, "")
  | some di =>
    match rfindIdx '/' p.data with
    | some si =>
      if di < si + 1 then (p, "")
      else if ((p.data.take di).drop (si + 1)).any (fun c => c != '.') then
        (⟨p.data.take di⟩, ⟨p.data.drop di⟩)
      else (p, "")
    | none =>
      if (p.data.take di).any (fun c => c != '.') then
        (⟨p.data.take di⟩, ⟨p.data.drop di⟩)
      else (p, "")

/-- A decoded image, as `Image.open` plus `ImageOps.exif_transpose` produce it:
a color mode and the EXIF-orientation-corrected pixel dimensions. -/
structure DecodedImage where
  mode : Mode
  dims : Dims
  deriving DecidableEq, Repr

/-- An uploaded file handed to the helpers: its `.name`, and the result of
attempting to decode its bytes (`none` models corrupt/undecodable data, for
which `Image.open`/processing raises and the `except Exception` branch runs). -/
structure ImageFile where
  name : String
  decoded : Option DecodedImage
  deriving DecidableEq, Repr

/-- A re-encoded output image, as written by
`image.save(output, format='JPEG', quality=..., optimize=True)`. -/
structure EncodedImage where
  dims : Dims
  mode : Mode
  quality : Nat
  format : String
  deriving DecidableEq, Repr

/-- `optimize_image(image_field, max_width=1200, max_height=800, quality=85)`
(`news/utils.py` lines 8-57): `None` for a falsy input (checked before any
decoding); `None` when decoding/processing raises (caught and logged, never
propagated); otherwise the flattened, EXIF-corrected, bound-resized image,
JPEG-encoded, under the name
`os.path.splitext(image_field.name)[0] + "_optimized.jpg"`. -/
def optimize_image (image_field : Option ImageFile)
    (max_width max_height quality : Nat) : Option (String × EncodedImage) :=
  match image_field with
  | none => none
  | some f =>
    match f.decoded with
    | none => none
    | some img =>
      some ((splitext f.name).1 ++ "_optimized.jpg",
        ⟨optimizeDims img.dims max_width max_height,
         if Mode.needsFlatten img.mode then Mode.RGB else img.mode,
         quality, "JPEG"⟩)

/-- `create_thumbnail(image_field, size=(300, 200))` (`news/utils.py`
lines 60-101): same structure as `optimize_image` with the thumbnail fit,
fixed quality 90, and suffix `"_thumb.jpg"`. -/
def create_thumbnail (image_field : Option ImageFile) (sx sy : Nat) :
    Option (String × EncodedImage) :=
  match image_field with
  | none => none
  | some f =>
    match f.decoded with
    | none => none
    | some img =>
      some ((splitext f.name).1 ++ "_thumb.jpg",
        ⟨thumbnailDims img.dims sx sy,
         if Mode.needsFlatten img.mode then Mode.RGB else img.mode,
         90, "JPEG"⟩)

/-- `get_image_dimensions(image_field)` (`news/utils.py` lines 135-146):
`(None, None)` for a falsy input or on decode failure, else the size pair. -/
def get_image_dimensions (image_field : Option ImageFile) :
    Option Nat × Option Nat :=
  match image_field with
  | none => (none, none)
  | some f =>
    match f.decoded with
    | none => (none, none)
    | some img => (some img.dims.width, some img.dims.height)

/-- C4. The helpers never raise: in the embedding both are total functions into
`Option` (the `try/except Exception` catches every decode/processing failure
and returns `None`), and every successful result is JPEG-encoded and named by
suffixing the original name (sans extension) with `"_optimized.jpg"` /
`"_thumb.jpg"` respectively. -/
theorem image_helpers_never_raise (input : Option ImageFile)
    (mw mh q sx sy : Nat) :
    (optimize_image input mw mh q = none ∨
      ∃ f e, input = some f ∧
        optimize_image input mw mh q =
          some ((splitext f.name).1 ++ "_optimized.jpg", e) ∧
        e.format = "JPEG") ∧
    (create_thumbnail input sx sy = none ∨
      ∃ f e, input = some f ∧
        create_thumbnail input sx sy =
          some ((splitext f.name).1 ++ "_thumb.jpg", e) ∧
        e.format = "JPEG") := by
  constructor
  · cases input with
    | none => exact Or.inl rfl
    | some f =>
      cases hd : f.decoded with
      | none =>
        exact Or.inl (by simp [optimize_image, hd])
      | some img =>
        exact Or.inr ⟨f,
          ⟨optimizeDims img.dims mw mh,
           if Mode.needsFlatten img.mode then Mode.RGB else img.mode, q, "JPEG"⟩,
          rfl, by simp [optimize_image, hd], rfl⟩
  · cases input with
    | none => exact Or.inl rfl
    | some f =>
      cases hd : f.decoded with
      | none =>
        exact Or.inl (by simp [create_thumbnail, hd])
      | some img =>
        exact Or.inr ⟨f,
          ⟨thumbnailDims img.dims sx sy,
           if Mode.needsFlatten img.mode then Mode.RGB else img.mode, 90, "JPEG"⟩,
          rfl, by simp [create_thumbnail, hd], rfl⟩

/-- C9. Falsy-input short-circuit: an absent/empty image field (Python falsy,
embedded as `none`) makes `optimize_image` and `create_thumbnail` return `None`
and `get_image_dimensions` return `(None, None)`; the guard `if not
image_field: return ...` sits before `Image.open`, so no decode is attempted. -/
theorem falsy_input_short_circuit (mw mh q sx sy : Nat) :
    optimize_image none mw mh q = none ∧
    create_thumbnail none sx sy = none ∧
    get_image_dimensions none = (none, none) :=
  ⟨rfl, rfl, rfl⟩

/-- The character test of `get_upload_path`'s filter (`news/utils.py` line 120):
`c.isalnum() or c in (' ', '-', '_')`. Python's `str.isalnum` is Unicode-aware,
so it is a parameter of the embedding. -/
def allowedChar (isalnum : Char → Bool) (c : Char) : Bool :=
  isalnum c || c == ' ' || c == '-' || c == '_'

/-- Python `str.rstrip()`: drop trailing whitespace. -/
def rstrip (l : List Char) : List Char :=
  (l.reverse.dropWhile (fun c => c.isWhitespace)).reverse

/-- `clean_name` of `get_upload_path` (`news/utils.py` lines 120-121): keep only
alphanumerics, spaces, hyphens and underscores, strip trailing whitespace
(`.rstrip()`), then replace every space with an underscore. -/
def cleanName (isalnum : Char → Bool) (name : String) : String :=
  ⟨(rstrip ((name.data).filter (allowedChar isalnum))).map
      (fun c => if c = ' ' then '_' else c)⟩

/-- `get_upload_path(instance, filename)` (`news/utils.py` lines 104-123): the
upload path `f"{model_name}s/{year}/{month}/{clean_name}{ext}"`, where
`model_name` is the lowercased class name of the instance and year/month come
from `timezone.now()` (both passed here as parameters). -/
def get_upload_path (isalnum : Char → Bool)
    (model_name year month filename : String) : String :=
  model_name ++ "s/" ++ year ++ "/" ++ month ++ "/" ++
    cleanName isalnum (splitext filename).1 ++ (splitext filename).2

/-- The sanitization exactly as the claim words it: remove every character that
is not alphanumeric/space/hyphen/underscore, then replace every remaining space
with an underscore — with no stripping step. -/
def cleanNameClaim (isalnum : Char → Bool) (name : String) : String :=
  ⟨((name.data).filter (allowedChar isalnum)).map
      (fun c => if c = ' ' then '_' else c)⟩

lemma mem_rstrip {a : Char} {l : List Char} (h : a ∈ rstrip l) : a ∈ l := by
  rw [rstrip, List.mem_reverse] at h
  exact List.mem_reverse.mp ((List.dropWhile_sublist _).subset h)

/-- C7 counterexample: for the filename `"a .png"` the code rstrips the kept
characters `"a "` down to `"a"` before the space replacement and returns
`articles/2026/10/a.png`, while the claim's filter-then-replace sanitization
gives `"a_"` and hence the path `articles/2026/10/a_.png`. -/
theorem upload_path_trailing_space_counterexample :
    get_upload_path Char.isAlphanum "article" "2026" "10" "a .png" =
      "articles/2026/10/a.png" ∧
    cleanNameClaim Char.isAlphanum (splitext "a .png").1 = "a_" ∧
    get_upload_path Char.isAlphanum "article" "2026" "10" "a .png" ≠
      "article" ++ "s/" ++ "2026" ++ "/" ++ "10" ++ "/" ++
        cleanNameClaim Char.isAlphanum (splitext "a .png").1 ++
        (splitext "a .png").2 := by
  refine ⟨?_, ?_, ?_⟩ <;> decide

/-- C7 amended. `get_upload_path` returns
`{model_name}s/{year}/{month}/{clean}{ext}` where `clean` is the base filename
(extension split off and kept) with every character other than
alphanumerics/space/hyphen/underscore removed, trailing whitespace then
stripped, and every remaining space replaced by an underscore; consequently
every character of `clean` is alphanumeric, a hyphen or an underscore. -/
theorem upload_path_form (isalnum : Char → Bool)
    (model_name year month filename : String) :
    get_upload_path isalnum model_name year month filename =
      model_name ++ "s/" ++ year ++ "/" ++ month ++ "/" ++
        cleanName isalnum (splitext filename).1 ++ (splitext filename).2 ∧
    ∀ c ∈ (cleanName isalnum (splitext filename).1).data,
      isalnum c = true ∨ c = '-' ∨ c = '_' := by
  refine ⟨rfl, ?_⟩
  intro c hc
  have hc' : c ∈ (rstrip (((splitext filename).1.data).filter
      (allowedChar isalnum))).map (fun x => if x = ' ' then '_' else x) := hc
  rcases List.mem_map.mp hc' with ⟨a, ha, hac⟩
  have hmem : a ∈ ((splitext filename).1.data).filter (allowedChar isalnum) :=
    mem_rstrip ha
  have hallow : allowedChar isalnum a = true := (List.mem_filter.mp hmem).2
  by_cases hsp : a = ' '
  · right; right
    rw [← hac, if_pos hsp]
  · rw [← hac, if_neg hsp]
    rw [allowedChar, Bool.or_eq_true, Bool.or_eq_true, Bool.or_eq_true] at hallow
    rcases hallow with ((h1 | h2) | h3) | h4
    · exact Or.inl h1
    · exact absurd (beq_iff_eq.mp h2) hsp
    · exact Or.inr (Or.inl (beq_iff_eq.mp h3))
    · exact Or.inr (Or.inr (beq_iff_eq.mp h4))

/-- C7 witness: the filename `"My File.png"` maps to
`articles/2026/10/My_File.png`, and its first character is alphanumeric. -/
theorem upload_path_form_witness :
    get_upload_path Char.isAlphanum "article" "2026" "10" "My File.png" =
      "article" ++ "s/" ++ "2026" ++ "/" ++ "10" ++ "/" ++
        cleanName Char.isAlphanum (splitext "My File.png").1 ++
        (splitext "My File.png").2 ∧
    (Char.isAlphanum 'M' = true ∨ 'M' = '-' ∨ 'M' = '_') :=
  ⟨(upload_path_form Char.isAlphanum "article" "2026" "10" "My File.png").1,
   (upload_path_form Char.isAlphanum "article" "2026" "10" "My File.png").2 'M'
     (by decide)⟩

/-- The fields of an `Article` record that `save` touches or reads
(`news/models.py` lines 57-130), plus `views_count` as a representative
untouched field. -/
structure ArticleState where
  title : String
  slug : String
  status : String
  published_at : Option Nat
  featured_image : Option ImageFile
  featured_image_thumbnail : Option (String × EncodedImage)
  views_count : Nat
  deriving DecidableEq, Repr

/-- `Article.save` lines 110-111: `if not self.slug: self.slug =
slugify(self.title)`; `slugifyFn` stands for `django.utils.text.slugify`. -/
def slugStep (slugifyFn : String → String) (a : ArticleState) : ArticleState :=
  if a.slug = "" then { a with slug := slugifyFn a.title } else a

/-- `Article.save` lines 114-115: set `published_at` when status is published
and it is not yet set; `now` stands for `timezone.now()`. -/
def publishStep (now : Nat) (a : ArticleState) : ArticleState :=
  if a.status = "published" ∧ a.published_at = none then
    { a with published_at := some now }
  else a

/-- The state of the article just before the thumbnail step of `save`. -/
def articlePreThumbnail (slugifyFn : String → String) (now : Nat)
    (a : ArticleState) : ArticleState :=
  publishStep now (slugStep slugifyFn a)

/-- `Article.save` (`news/models.py` lines 109-130): slug and published-at
bookkeeping, then — if a featured image is present and no thumbnail exists —
synchronously run `create_thumbnail` (default 300x200 box) and attach the
result with `self.featured_image_thumbnail.save(..., save=False)`; a `None`
result (processing failure) leaves the field untouched. The returned state is
the one handed to `super().save(...)`, i.e. the record as persisted. -/
def articleSave (slugifyFn : String → String) (now : Nat)
    (a : ArticleState) : ArticleState :=
  let a2 := articlePreThumbnail slugifyFn now a
  match a2.featured_image with
  | some img =>
    match a2.featured_image_thumbnail with
    | none =>
      match create_thumbnail (some img) 300 200 with
      | some nc => { a2 with featured_image_thumbnail := some nc }
      | none => a2
    | some _ => a2
  | none => a2

lemma articlePreThumbnail_frame (slugifyFn : String → String) (now : Nat)
    (a : ArticleState) :
    (articlePreThumbnail slugifyFn now a).featured_image = a.featured_image ∧
    (articlePreThumbnail slugifyFn now a).featured_image_thumbnail =
      a.featured_image_thumbnail ∧
    (articlePreThumbnail slugifyFn now a).title = a.title ∧
    (articlePreThumbnail slugifyFn now a).status = a.status ∧
    (articlePreThumbnail slugifyFn now a).views_count = a.views_count := by
  rw [articlePreThumbnail, publishStep, slugStep]
  split_ifs <;> exact ⟨rfl, rfl, rfl, rfl, rfl⟩

/-- C8. The thumbnail step of `Article.save`: when a featured image is present
and no thumbnail exists, a successful `create_thumbnail` result is attached to
the persisted record and nothing else changes relative to the pre-thumbnail
state; a failed (`None`) result leaves the record exactly as it was before the
step (thumbnail field unchanged, every other field unaffected); an existing
thumbnail is never regenerated; no featured image skips the step. The frame
conjuncts record that the preceding slug/publish steps do not touch the image,
thumbnail, title, status or view-count fields, so "thumbnail exists/absent"
can be read off the original record. -/
theorem article_save_thumbnail (slugifyFn : String → String) (now : Nat)
    (a : ArticleState) :
    (∀ img nc,
      (articlePreThumbnail slugifyFn now a).featured_image = some img →
      (articlePreThumbnail slugifyFn now a).featured_image_thumbnail = none →
      create_thumbnail (some img) 300 200 = some nc →
      articleSave slugifyFn now a =
        { articlePreThumbnail slugifyFn now a with
            featured_image_thumbnail := some nc }) ∧
    (∀ img,
      (articlePreThumbnail slugifyFn now a).featured_image = some img →
      (articlePreThumbnail slugifyFn now a).featured_image_thumbnail = none →
      create_thumbnail (some img) 300 200 = none →
      articleSave slugifyFn now a = articlePreThumbnail slugifyFn now a) ∧
    (∀ t, (articlePreThumbnail slugifyFn now a).featured_image_thumbnail = some t →
      articleSave slugifyFn now a = articlePreThumbnail slugifyFn now a) ∧
    ((articlePreThumbnail slugifyFn now a).featured_image = none →
      articleSave slugifyFn now a = articlePreThumbnail slugifyFn now a) ∧
    (articlePreThumbnail slugifyFn now a).featured_image = a.featured_image ∧
    (articlePreThumbnail slugifyFn now a).featured_image_thumbnail =
      a.featured_image_thumbnail ∧
    (articlePreThumbnail slugifyFn now a).title = a.title ∧
    (articlePreThumbnail slugifyFn now a).status = a.status ∧
    (articlePreThumbnail slugifyFn now a).views_count = a.views_count ∧
    (articleSave slugifyFn now a).featured_image = a.featured_image := by
  obtain ⟨hf1, hf2, hf3, hf4, hf5⟩ := articlePreThumbnail_frame slugifyFn now a
  have hc1 : ∀ img nc,
      (articlePreThumbnail slugifyFn now a).featured_image = some img →
      (articlePreThumbnail slugifyFn now a).featured_image_thumbnail = none →
      create_thumbnail (some img) 300 200 = some nc →
      articleSave slugifyFn now a =
        { articlePreThumbnail slugifyFn now a with
            featured_image_thumbnail := some nc } := by
    intro img nc himg hth hct
    rw [articleSave, himg, hth]
    simp [hct, himg]
  have hc2 : ∀ img,
      (articlePreThumbnail slugifyFn now a).featured_image = some img →
      (articlePreThumbnail slugifyFn now a).featured_image_thumbnail = none →
      create_thumbnail (some img) 300 200 = none →
      articleSave slugifyFn now a = articlePreThumbnail slugifyFn now a := by
    intro img himg hth hct
    rw [articleSave, himg, hth]
    simp [hct]
  have hc3 : ∀ t,
      (articlePreThumbnail slugifyFn now a).featured_image_thumbnail = some t →
      articleSave slugifyFn now a = articlePreThumbnail slugifyFn now a := by
    intro t hth
    rw [articleSave, hth]
    cases (articlePreThumbnail slugifyFn now a).featured_image <;> rfl
  have hc4 : (articlePreThumbnail slugifyFn now a).featured_image = none →
      articleSave slugifyFn now a = articlePreThumbnail slugifyFn now a := by
    intro himg
    rw [articleSave, himg]
  refine ⟨hc1, hc2, hc3, hc4, hf1, hf2, hf3, hf4, hf5, ?_⟩
  cases himg : (articlePreThumbnail slugifyFn now a).featured_image with
  | none =>
    rw [hc4 himg]
    exact hf1
  | some img =>
    cases hth : (articlePreThumbnail slugifyFn now a).featured_image_thumbnail with
    | some t =>
      rw [hc3 t hth]
      exact hf1
    | none =>
      cases hct : create_thumbnail (some img) 300 200 with
      | none =>
        rw [hc2 img himg hth hct]
        exact hf1
      | some nc =>
        rw [hc1 img nc himg hth hct]
        exact hf1

/-- C8 witness: a draft article with a decodable 100x100 featured image and no
thumbnail gets `pic_thumb.jpg` attached by `save`. -/
theorem article_save_thumbnail_witness :
    articleSave (fun s => s) 0
      ⟨"T", "t", "draft", none, some ⟨"pic.png", some ⟨Mode.RGB, ⟨100, 100⟩⟩⟩,
        none, 0⟩ =
      { articlePreThumbnail (fun s => s) 0
          ⟨"T", "t", "draft", none, some ⟨"pic.png", some ⟨Mode.RGB, ⟨100, 100⟩⟩⟩,
            none, 0⟩ with
        featured_image_thumbnail :=
          some ("pic_thumb.jpg", ⟨⟨100, 100⟩, Mode.RGB, 90, "JPEG"⟩) } :=
  (article_save_thumbnail (fun s => s) 0
      ⟨"T", "t", "draft", none, some ⟨"pic.png", some ⟨Mode.RGB, ⟨100, 100⟩⟩⟩,
        none, 0⟩).1
    ⟨"pic.png", some ⟨Mode.RGB, ⟨100, 100⟩⟩⟩
    ("pic_thumb.jpg", ⟨⟨100, 100⟩, Mode.RGB, 90, "JPEG"⟩)
    (by decide) (by decide) (by decide)

end News
